import Mathlib

/-
Shallow embedding of the "ke" knowledge-engine pipeline
(src/document_db.py, src/queues.py, src/graph_db.py, src/entity_extractor.py,
src/worker.py).  Python dicts obtained via `.get` are modelled with Option
fields; Python truthiness of `str | None` and of the parsed-entities JSON
object is modelled by explicit Bool functions.  Stateful collaborators
(crawler, LLM call, kuzu connection) are modelled as outcome oracles; the
asyncio machinery of WorkerBase.start is modelled as a small-step phase
machine.
-/

/-- A node object of the parsed entities JSON, as read by
GraphDB.update_graph via node.get("id") and node.get("label", "Unknown"). -/
structure NodeDict where
  id : Option String
  label : Option String
deriving DecidableEq

/-- An edge object of the parsed entities JSON, as read by
GraphDB.update_graph via edge.get("source"), edge.get("target") and
edge.get("relation", "RELATED_TO"). -/
structure EdgeDict where
  source : Option String
  target : Option String
  relation : Option String
deriving DecidableEq

/-- The parsed entities JSON object, restricted to the two keys the code
reads ("nodes" and "edges"); a missing key is none. -/
structure EntitiesDict where
  nodes : Option (List NodeDict)
  edges : Option (List EdgeDict)
deriving DecidableEq

/-- src/document_db.py DocumentItem: dataclass with fields url,
content (str | None), entities (dict | None). -/
structure DocumentItem where
  url : String
  content : Option String
  entities : Option EntitiesDict
deriving DecidableEq

/-- src/queues.py UrlItem. -/
structure UrlItem where
  url : String
  ignore_cache : Bool
deriving DecidableEq

/-- src/queues.py ExtractEntitiesItem. -/
structure ExtractEntitiesItem where
  url : String
  ignore_cache : Bool
deriving DecidableEq

/-- src/queues.py UpdateGraphItem. -/
structure UpdateGraphItem where
  url : String
deriving DecidableEq

/-- Python truthiness of a `str | None` value: None and "" are falsy. -/
def strTruthy : Option String → Bool
  | none => false
  | some s => !(s == "")

/-- Python truthiness of the `dict | None` entities field: None is falsy and
a dict is truthy exactly when it has at least one key (of the keys the code
ever writes or reads: "nodes" and "edges"). -/
def entitiesTruthy : Option EntitiesDict → Bool
  | none => false
  | some d => d.nodes.isSome || d.edges.isSome

/-- src/document_db.py DocumentItem.__or__: builds
`self.__class__(**asdict(self) | asdict(other))`.  `dataclasses.asdict`
always yields all three keys (url, content, entities), so the right-biased
dict union takes every field from `other`, including fields that are None
in `other`. -/
def DocumentItem.or (_self other : DocumentItem) : DocumentItem :=
  { url := other.url, content := other.content, entities := other.entities }

/-- The document store state: the diskcache Index mapping url keys to
DocumentItem values. -/
abbrev DocDB : Type := String → Option DocumentItem

/-- The empty document store. -/
def emptyDB : DocDB := fun _ => none

/-- src/document_db.py DocumentDB.get. -/
def DocumentDB.get (db : DocDB) (url : String) : Option DocumentItem :=
  db url

/-- src/document_db.py DocumentDB.update:
`updated = self.get(document.url) or DocumentItem(url=document.url)`
then `updated = updated | document` and store under `document.url`. -/
def DocumentDB.update (db : DocDB) (document : DocumentItem) : DocDB :=
  let updated := (DocumentDB.get db document.url).getD
    { url := document.url, content := none, entities := none }
  let updated := DocumentItem.or updated document
  fun u => if u == document.url then some updated else db u

/-- src/queues.py QueueBase.add: append at the tail of the persisted deque. -/
def QueueBase.add (q : List α) (item : α) : List α :=
  q ++ [item]

/-- src/queues.py QueueBase.next: popleft, returning None on IndexError;
returns the head (if any) together with the remaining queue state. -/
def QueueBase.next (q : List α) : Option α × List α :=
  match q with
  | [] => (none, [])
  | x :: xs => (some x, xs)

/-- Models the Python falsiness test `if not x: continue` applied to a value
obtained from dict.get: returns the usable string exactly when the value is
present and non-empty. -/
def validId : Option String → Option String
  | none => none
  | some s => if s == "" then none else some s

/-- The node table of the graph store: name (primary key) paired with label. -/
abbrev NodeRow : Type := String × String

/-- An edge row of the graph store: (source name, target name, relation). -/
abbrev EdgeRow : Type := String × String × String

/-- First label stored under a name in the node table. -/
def nodeLookup : List NodeRow → String → Option String
  | [], _ => none
  | (n, l) :: t, k => if n = k then some l else nodeLookup t k

/-- Whether the node table holds an entity with the given name (the MATCH of
an Entity by its primary key succeeds). -/
def hasName (ns : List NodeRow) (k : String) : Bool :=
  (nodeLookup ns k).isSome

/-- The kuzu node MERGE of GraphDB.update_graph:
`MERGE (e:Entity {name}) ON CREATE SET e.label ON MATCH SET e.label`:
if an entity with the name exists its label is overwritten, otherwise a
fresh row is created. -/
def upsertNode : List NodeRow → String → String → List NodeRow
  | [], name, label => [(name, label)]
  | (n, l) :: t, name, label =>
    if n = name then (name, label) :: t else (n, l) :: upsertNode t name label

/-- The node loop of GraphDB.update_graph: for each node of the fragment,
skip it when its id is falsy, otherwise upsert (id, label-or-"Unknown"). -/
def nodesPhase : List NodeDict → List NodeRow → List NodeRow
  | [], g => g
  | n :: t, g =>
    match validId n.id with
    | none => nodesPhase t g
    | some a => nodesPhase t (upsertNode g a (n.label.getD "Unknown"))

/-- The edge loop of GraphDB.update_graph: for each edge of the fragment,
skip it when source or target is falsy; otherwise
`MATCH (s {name: source}), (t {name: target}) MERGE (s)-[r {relation}]->(t)`:
nothing happens unless both endpoints exist in the node table, and the edge
row is appended only when the (source, target, relation) triple is absent. -/
def edgesPhase : List EdgeDict → List NodeRow → List EdgeRow → List EdgeRow
  | [], _, es => es
  | e :: t, nTab, es =>
    match validId e.source, validId e.target with
    | some s, some tg =>
      let r := e.relation.getD "RELATED_TO"
      let es' :=
        if hasName nTab s && hasName nTab tg then
          if (s, tg, r) ∈ es then es else es ++ [(s, tg, r)]
        else es
      edgesPhase t nTab es'
    | _, _ => edgesPhase t nTab es

/-- The graph store state: node table and edge table. -/
structure Graph where
  nodes : List NodeRow
  edges : List EdgeRow

/-- src/graph_db.py GraphDB.update_graph: upsert every node of the fragment,
then merge every edge against the updated node table. -/
def GraphDB.update_graph (entities : EntitiesDict) (g : Graph) : Graph :=
  let ns := entities.nodes.getD []
  let es := entities.edges.getD []
  let nTab := nodesPhase ns g.nodes
  { nodes := nTab, edges := edgesPhase es nTab g.edges }

/-- Outcome of `crawler.arun(url)` inside the worker's try block: a result
object, or an exception escaping the block. -/
inductive CrawlOutcome where
  | ok (success : Bool) (markdown : String) (error_message : String)
  | exn
deriving DecidableEq

/-- Outcome of the OpenRouter chat call plus json.loads inside
EntityExtractor.extract_entities: a parsed entities object, or an
exception (API failure, malformed JSON). -/
abbrev ExtractOracle : Type := String → Except Unit EntitiesDict

/-- Outcome of the `graph_db.update_graph` call as seen by GraphWorker's
try block: normal return, or an exception escaping the call. -/
inductive MergeOutcome where
  | ok
  | exn
deriving DecidableEq

/-- src/entity_extractor.py EntityExtractor.extract_entities: raises
ValueError when `doc_item.content` is falsy (None or ""), otherwise sends
the content to the model and parses the reply (the oracle). -/
def extract_entities (oracle : ExtractOracle) (doc_item : DocumentItem) :
    Except Unit EntitiesDict :=
  match doc_item.content with
  | none => .error ()
  | some c => if c == "" then .error () else oracle c

/-- src/worker.py RETRY_DELAY_SECONDS. -/
def RETRY_DELAY_SECONDS : Nat := 10

/-- src/worker.py WorkerBase.retry_after_delay: after the sleep elapses,
the (unmodified) item is appended at the tail of the given queue.  This is
the deferred effect of the timer task created with asyncio.create_task. -/
def WorkerBase.retry_after_delay (item : α) (queue : List α) : List α :=
  queue ++ [item]

/-- Effects of one call to UrlWorker.loop: the return value, the document
store and both queue states after the call returns, whether the crawl
collaborator was invoked, and a retry task scheduled (item, delay in
seconds) but not yet fired. -/
structure UrlLoopResult where
  processed : Bool
  db : DocDB
  url_queue : List UrlItem
  extract_queue : List ExtractEntitiesItem
  crawlInvoked : Bool
  retryScheduled : Option (UrlItem × Nat)

/-- src/worker.py UrlWorker.loop.  The queue head (if any) is dequeued; when
ignore_cache is false and a document record exists (`if doc_item:` — a
dataclass instance is always truthy, whatever its content), the item is
skipped, enqueueing ExtractEntitiesItem(url) when the record's entities are
falsy; otherwise the crawler runs: on success the document is stored and
ExtractEntitiesItem(url) enqueued, on a failed result or an exception a
retry of the original item on the url queue is scheduled after
RETRY_DELAY_SECONDS via asyncio.create_task. -/
def UrlWorker.loop (crawl : String → CrawlOutcome) (db : DocDB)
    (url_queue : List UrlItem) (extract_queue : List ExtractEntitiesItem) :
    UrlLoopResult :=
  match url_queue with
  | [] =>
    { processed := false, db := db, url_queue := [],
      extract_queue := extract_queue, crawlInvoked := false,
      retryScheduled := none }
  | url_item :: rest =>
    match (if url_item.ignore_cache then none else DocumentDB.get db url_item.url) with
    | some doc_item =>
      { processed := true, db := db, url_queue := rest,
        extract_queue :=
          if entitiesTruthy doc_item.entities then extract_queue
          else QueueBase.add extract_queue
            { url := url_item.url, ignore_cache := false },
        crawlInvoked := false, retryScheduled := none }
    | none =>
      match crawl url_item.url with
      | .ok success markdown _ =>
        if success then
          { processed := true,
            db := DocumentDB.update db
              { url := url_item.url, content := some markdown, entities := none },
            url_queue := rest,
            extract_queue := QueueBase.add extract_queue
              { url := url_item.url, ignore_cache := false },
            crawlInvoked := true, retryScheduled := none }
        else
          { processed := true, db := db, url_queue := rest,
            extract_queue := extract_queue, crawlInvoked := true,
            retryScheduled := some (url_item, RETRY_DELAY_SECONDS) }
      | .exn =>
        { processed := true, db := db, url_queue := rest,
          extract_queue := extract_queue, crawlInvoked := true,
          retryScheduled := some (url_item, RETRY_DELAY_SECONDS) }

/-- Effects of one call to EntityExtractorWorker.loop. -/
structure ExtractLoopResult where
  processed : Bool
  db : DocDB
  extract_queue : List ExtractEntitiesItem
  update_graph_queue : List UpdateGraphItem
  extractionAttempted : Bool
  retryScheduled : Option (ExtractEntitiesItem × Nat)

/-- src/worker.py EntityExtractorWorker.loop.  The queue head (if any) is
dequeued; when no document record exists the item is logged and dropped
(no retry, nothing enqueued); when ignore_cache is false and the record's
entities are truthy the item is skipped; otherwise extract_entities runs:
on success the record (with entities set) is stored and
UpdateGraphItem(url) enqueued, on an exception a retry of the original
item on the extract queue is scheduled after RETRY_DELAY_SECONDS. -/
def EntityExtractorWorker.loop (oracle : ExtractOracle) (db : DocDB)
    (extract_queue : List ExtractEntitiesItem)
    (update_graph_queue : List UpdateGraphItem) : ExtractLoopResult :=
  match extract_queue with
  | [] =>
    { processed := false, db := db, extract_queue := [],
      update_graph_queue := update_graph_queue,
      extractionAttempted := false, retryScheduled := none }
  | item :: rest =>
    match DocumentDB.get db item.url with
    | none =>
      { processed := true, db := db, extract_queue := rest,
        update_graph_queue := update_graph_queue,
        extractionAttempted := false, retryScheduled := none }
    | some doc_item =>
      if !item.ignore_cache && entitiesTruthy doc_item.entities then
        { processed := true, db := db, extract_queue := rest,
          update_graph_queue := update_graph_queue,
          extractionAttempted := false, retryScheduled := none }
      else
        match extract_entities oracle doc_item with
        | .ok entities =>
          { processed := true,
            db := DocumentDB.update db { doc_item with entities := some entities },
            extract_queue := rest,
            update_graph_queue := QueueBase.add update_graph_queue
              { url := item.url },
            extractionAttempted := true, retryScheduled := none }
        | .error _ =>
          { processed := true, db := db, extract_queue := rest,
            update_graph_queue := update_graph_queue,
            extractionAttempted := true,
            retryScheduled := some (item, RETRY_DELAY_SECONDS) }

/-- Effects of one call to GraphWorker.loop. -/
structure GraphLoopResult where
  processed : Bool
  update_graph_queue : List UpdateGraphItem
  graph : Graph
  mergeAttempted : Bool
  retryScheduled : Option (UpdateGraphItem × Nat)

/-- src/worker.py GraphWorker.loop.  The queue head (if any) is dequeued;
when no document record exists or the record's entities are falsy the item
is logged and dropped (no retry, graph untouched); otherwise
graph_db.update_graph runs on the record's entities: on an exception a
retry of the original item on the update-graph queue is scheduled after
RETRY_DELAY_SECONDS (the merge outcome oracle models an exception raised
by the call). -/
def GraphWorker.loop (merge : MergeOutcome) (db : DocDB) (graph : Graph)
    (update_graph_queue : List UpdateGraphItem) : GraphLoopResult :=
  match update_graph_queue with
  | [] =>
    { processed := false, update_graph_queue := [], graph := graph,
      mergeAttempted := false, retryScheduled := none }
  | item :: rest =>
    match DocumentDB.get db item.url with
    | none =>
      { processed := true, update_graph_queue := rest, graph := graph,
        mergeAttempted := false, retryScheduled := none }
    | some doc_item =>
      if !entitiesTruthy doc_item.entities then
        { processed := true, update_graph_queue := rest, graph := graph,
          mergeAttempted := false, retryScheduled := none }
      else
        match merge with
        | .ok =>
          { processed := true, update_graph_queue := rest,
            graph := GraphDB.update_graph (doc_item.entities.getD
              { nodes := none, edges := none }) graph,
            mergeAttempted := true, retryScheduled := none }
        | .exn =>
          { processed := true, update_graph_queue := rest, graph := graph,
            mergeAttempted := true,
            retryScheduled := some (item, RETRY_DELAY_SECONDS) }

/-- Control position of WorkerBase.start: about to test the shutdown event
at the top of the while loop; inside `await self.loop()` (the only place a
queue item is dequeued and processing of it begins); inside the idle
asyncio.wait_for on the shutdown event with the poll-period timeout; or
past the loop. -/
inductive WorkerPhase where
  | check
  | run
  | idle
  | stopped
deriving DecidableEq

/-- One transition of WorkerBase.start, given whether the shared shutdown
event is set and whether the in-flight `self.loop()` call (when at run)
reports an item processed.  The check either exits the while loop or
starts `self.loop()`; a run returns to the test directly when an item was
processed and through the idle wait otherwise; the idle wait ends — at the
timeout or as soon as the shutdown event is set — and re-tests. -/
def WorkerBase.startStep (shutdown : Bool) (processed : Bool) :
    WorkerPhase → WorkerPhase
  | .check => if shutdown then .stopped else .run
  | .run => if processed then .check else .idle
  | .idle => .check
  | .stopped => .stopped

/-- n transitions of WorkerBase.start under a fixed shutdown-event value,
with `os i` giving the processed-result of the i-th step's loop call. -/
def WorkerBase.stepN (shutdown : Bool) (os : Nat → Bool) :
    Nat → WorkerPhase → WorkerPhase
  | 0, p => p
  | n + 1, p => WorkerBase.startStep shutdown (os n) (WorkerBase.stepN shutdown os n p)

/-- First update of the C1 failing input: stores content "c" for url "u". -/
def c1p1 : DocumentItem := { url := "u", content := some "c", entities := none }

/-- Second update of the C1 failing input: sets entities for url "u" and
leaves content unset. -/
def c1p2 : DocumentItem :=
  { url := "u", content := none,
    entities := some { nodes := some [{ id := some "A", label := some "Org" }],
                       edges := some [] } }

/-- C1: the claim (an unset field in a second update leaves the stored value
untouched) is what the spec and the code's own get-then-merge structure
intend, but DocumentItem.__or__ takes every field from the right operand,
None included: after storing content "c" for "u" and then an entities-only
update for "u", the stored content is None, not "c". -/
theorem document_update_erases_unset_fields :
    DocumentDB.get (DocumentDB.update (DocumentDB.update emptyDB c1p1) c1p2) "u" =
      some { url := "u", content := none, entities := c1p2.entities } := by
  decide

/-- Document store holding one record for "u" whose content and entities are
both unset (created by an update whose fields are all unset). -/
def dbUnsetContent : DocDB :=
  DocumentDB.update emptyDB { url := "u", content := none, entities := none }

/-- A crawl oracle that always succeeds. -/
def crawlOk : String → CrawlOutcome := fun _ => CrawlOutcome.ok true "text" ""

/-- C2 counterexample: the claim says the Fetch worker invokes the crawl
collaborator when the record's content is unset, but the code's skip test is
`if doc_item:` — mere existence of a record.  For the record of url "u"
with unset content and ignoreCache false, the crawl collaborator is not
invoked. -/
theorem fetch_skip_ignores_content :
    (UrlWorker.loop crawlOk dbUnsetContent
      [{ url := "u", ignore_cache := false }] []).crawlInvoked = false := by
  decide

/-- C2 (amended): the Fetch worker treats a FetchItem as a skip (no
crawl-collaborator invocation) exactly when ignoreCache is false and a
DocumentRecord for the item's url exists, regardless of that record's
content. -/
theorem fetch_skip_iff_record_exists (crawl : String → CrawlOutcome)
    (db : DocDB) (eq : List ExtractEntitiesItem) (item : UrlItem)
    (rest : List UrlItem) :
    (UrlWorker.loop crawl db (item :: rest) eq).crawlInvoked = false ↔
      (item.ignore_cache = false ∧ (DocumentDB.get db item.url).isSome = true) := by
  cases hic : item.ignore_cache <;>
    cases hdb : DocumentDB.get db item.url <;>
      rcases hc : crawl item.url with ⟨s, m, e⟩ | _ <;>
        (try cases s) <;>
          simp [UrlWorker.loop, hic, hdb, hc]

/-- Witness for fetch_skip_iff_record_exists at a concrete state. -/
theorem fetch_skip_iff_record_exists_witness :
    (UrlWorker.loop crawlOk dbUnsetContent [{ url := "u", ignore_cache := false }]
      [{ url := "w", ignore_cache := false }]).crawlInvoked = false :=
  (fetch_skip_iff_record_exists crawlOk dbUnsetContent
    [{ url := "w", ignore_cache := false }] { url := "u", ignore_cache := false }
    []).mpr ⟨rfl, by decide⟩

/-- An extraction oracle that always fails. -/
def extractFail : ExtractOracle := fun _ => .error ()

/-- C3 counterexample: for url "u" there is a stored record but its content
is unset, so there is no stored content; the claim says the ExtractItem is
dropped with no retry scheduled, but the code attempts extraction, which
raises, and schedules a delayed retry. -/
theorem extract_missing_content_schedules_retry :
    (EntityExtractorWorker.loop extractFail dbUnsetContent
      [{ url := "u", ignore_cache := false }] []).retryScheduled =
      some ({ url := "u", ignore_cache := false }, RETRY_DELAY_SECONDS) := by
  decide

/-- C3 (amended): processing an ExtractItem for a url with no DocumentRecord
at all is a permanent skip: the item is dropped with no retry scheduled, no
GraphMergeItem is enqueued, and the store is untouched. -/
theorem extract_drop_only_when_no_record (oracle : ExtractOracle) (db : DocDB)
    (gq : List UpdateGraphItem) (item : ExtractEntitiesItem)
    (rest : List ExtractEntitiesItem)
    (hdb : DocumentDB.get db item.url = none) :
    (EntityExtractorWorker.loop oracle db (item :: rest) gq).extract_queue = rest ∧
    (EntityExtractorWorker.loop oracle db (item :: rest) gq).retryScheduled = none ∧
    (EntityExtractorWorker.loop oracle db (item :: rest) gq).update_graph_queue = gq ∧
    (EntityExtractorWorker.loop oracle db (item :: rest) gq).db = db ∧
    (EntityExtractorWorker.loop oracle db (item :: rest) gq).extractionAttempted = false ∧
    (EntityExtractorWorker.loop oracle db (item :: rest) gq).processed = true := by
  simp [EntityExtractorWorker.loop, hdb]

/-- Witness for extract_drop_only_when_no_record at a concrete state. -/
theorem extract_drop_only_when_no_record_witness :
    (EntityExtractorWorker.loop extractFail emptyDB
      [{ url := "u", ignore_cache := false }] []).retryScheduled = none :=
  (extract_drop_only_when_no_record extractFail emptyDB []
    { url := "u", ignore_cache := false } [] rfl).2.1

/-- C4: for a FetchItem with ignoreCache false whose url's record already
has content but no entities, the Fetch worker does not invoke the crawl
collaborator and still enqueues an ExtractItem for that url on the extract
queue. -/
theorem fetch_skip_with_advance (crawl : String → CrawlOutcome) (db : DocDB)
    (eq : List ExtractEntitiesItem) (item : UrlItem) (rest : List UrlItem)
    (doc : DocumentItem)
    (hic : item.ignore_cache = false)
    (hdb : DocumentDB.get db item.url = some doc)
    (_hcontent : strTruthy doc.content = true)
    (hent : doc.entities = none) :
    (UrlWorker.loop crawl db (item :: rest) eq).crawlInvoked = false ∧
    (UrlWorker.loop crawl db (item :: rest) eq).extract_queue =
      QueueBase.add eq { url := item.url, ignore_cache := false } ∧
    (UrlWorker.loop crawl db (item :: rest) eq).processed = true := by
  simp [UrlWorker.loop, hic, hdb, hent, entitiesTruthy]

/-- Document store holding one record for "u" with content "text" and no
entities. -/
def dbContentOnly : DocDB :=
  DocumentDB.update emptyDB { url := "u", content := some "text", entities := none }

/-- Witness for fetch_skip_with_advance at a concrete state. -/
theorem fetch_skip_with_advance_witness :
    (UrlWorker.loop crawlOk dbContentOnly [{ url := "u", ignore_cache := false }]
      []).crawlInvoked = false ∧
    (UrlWorker.loop crawlOk dbContentOnly [{ url := "u", ignore_cache := false }]
      []).extract_queue = QueueBase.add [] { url := "u", ignore_cache := false } ∧
    (UrlWorker.loop crawlOk dbContentOnly [{ url := "u", ignore_cache := false }]
      []).processed = true :=
  fetch_skip_with_advance crawlOk dbContentOnly [] { url := "u", ignore_cache := false }
    [] { url := "u", content := some "text", entities := none }
    rfl (by decide) (by decide) rfl

/-- C7: FIFO for a single producer — items added to an empty queue in order
a, b, c are returned by successive next() calls in order a, b, c, and
next() on the empty queue returns none (with the queue left empty) rather
than blocking or raising. -/
theorem queue_fifo_single_producer : ∀ (α : Type) (a b c : α),
    QueueBase.next (QueueBase.add (QueueBase.add (QueueBase.add ([] : List α) a) b) c) =
      (some a, [b, c]) ∧
    QueueBase.next [b, c] = (some b, [c]) ∧
    QueueBase.next [c] = (some c, ([] : List α)) ∧
    QueueBase.next ([] : List α) = ((none : Option α), []) := by
  intro α a b c
  exact ⟨rfl, rfl, rfl, rfl⟩

/-- C8: a GraphMergeItem whose url has no DocumentRecord, or whose record
has unset entities, is a permanent skip: dropped with no retry scheduled,
the graph store left unchanged. -/
theorem graph_merge_skip_no_entities (merge : MergeOutcome) (db : DocDB)
    (g : Graph) (item : UpdateGraphItem) (rest : List UpdateGraphItem)
    (h : DocumentDB.get db item.url = none ∨
      ∃ doc, DocumentDB.get db item.url = some doc ∧ doc.entities = none) :
    (GraphWorker.loop merge db g (item :: rest)).graph = g ∧
    (GraphWorker.loop merge db g (item :: rest)).retryScheduled = none ∧
    (GraphWorker.loop merge db g (item :: rest)).update_graph_queue = rest ∧
    (GraphWorker.loop merge db g (item :: rest)).mergeAttempted = false ∧
    (GraphWorker.loop merge db g (item :: rest)).processed = true := by
  rcases h with hdb | ⟨doc, hdb, hent⟩
  · simp [GraphWorker.loop, hdb]
  · simp [GraphWorker.loop, hdb, hent, entitiesTruthy]

/-- Witness for graph_merge_skip_no_entities at a concrete state. -/
theorem graph_merge_skip_no_entities_witness :
    (GraphWorker.loop MergeOutcome.exn emptyDB { nodes := [], edges := [] }
      [{ url := "u" }]).retryScheduled = none :=
  (graph_merge_skip_no_entities MergeOutcome.exn emptyDB
    { nodes := [], edges := [] } { url := "u" } [] (Or.inl rfl)).2.1

/-- Document store holding one record for "u" with unset content but with
entities already set (truthy). -/
def dbEntitiesNoContent : DocDB :=
  DocumentDB.update emptyDB
    { url := "u", content := none,
      entities := some { nodes := some [], edges := none } }

/-- C10 counterexample: for a record with unset content whose entities are
already set, an ExtractItem with ignoreCache false is skipped as already
processed — no extraction call, no delayed re-add — contradicting the
claim that every ExtractItem for a record with unset content is retried. -/
theorem extract_unset_content_no_retry_when_cached :
    (EntityExtractorWorker.loop extractFail dbEntitiesNoContent
      [{ url := "u", ignore_cache := false }] []).retryScheduled = none := by
  decide

/-- C10 (amended): for an ExtractItem whose url maps to an existing record
with unset content, unless the item is skipped as already processed
(ignoreCache false and entities already set), the extraction call raises,
the failure is treated as transient — a delayed re-add of the original item
to the extract queue is scheduled — and no GraphMergeItem is enqueued. -/
theorem extract_unset_content_transient_retry (oracle : ExtractOracle)
    (db : DocDB) (gq : List UpdateGraphItem) (item : ExtractEntitiesItem)
    (rest : List ExtractEntitiesItem) (doc : DocumentItem)
    (hdb : DocumentDB.get db item.url = some doc)
    (hcontent : doc.content = none)
    (hnoskip : item.ignore_cache = true ∨ entitiesTruthy doc.entities = false) :
    (EntityExtractorWorker.loop oracle db (item :: rest) gq).extractionAttempted = true ∧
    extract_entities oracle doc = .error () ∧
    (EntityExtractorWorker.loop oracle db (item :: rest) gq).retryScheduled =
      some (item, RETRY_DELAY_SECONDS) ∧
    (EntityExtractorWorker.loop oracle db (item :: rest) gq).update_graph_queue = gq ∧
    (EntityExtractorWorker.loop oracle db (item :: rest) gq).extract_queue = rest ∧
    WorkerBase.retry_after_delay item rest = rest ++ [item] := by
  have hext : extract_entities oracle doc = .error () := by
    simp [extract_entities, hcontent]
  rcases hnoskip with hic | hent
  · simp [EntityExtractorWorker.loop, hdb, hic, hext, WorkerBase.retry_after_delay]
  · simp [EntityExtractorWorker.loop, hdb, hent, hext, WorkerBase.retry_after_delay]

/-- Witness for extract_unset_content_transient_retry at a concrete state. -/
theorem extract_unset_content_transient_retry_witness :
    (EntityExtractorWorker.loop extractFail dbUnsetContent
      [{ url := "u", ignore_cache := false }] []).retryScheduled =
      some ({ url := "u", ignore_cache := false }, RETRY_DELAY_SECONDS) :=
  (extract_unset_content_transient_retry extractFail dbUnsetContent []
    { url := "u", ignore_cache := false } []
    { url := "u", content := none, entities := none }
    (by decide) rfl (Or.inr rfl)).2.2.1

/-- A crawl outcome the worker treats as a failure: a returned result with
success false, or an exception escaping the try block. -/
def crawlFailed : CrawlOutcome → Prop
  | .ok success _ _ => success = false
  | .exn => True

/-- C5: on any transient collaborator failure (crawl failure or exception,
extraction exception, graph-merge exception), the loop returns (processed,
without sleeping the retry delay itself) having scheduled a timer task that
will re-add the original, unmodified item to the tail of the very queue it
was dequeued from, after the fixed RETRY_DELAY_SECONDS; the queue itself
does not yet contain the item when the loop returns — only firing the
scheduled retry_after_delay appends it at the tail. -/
theorem transient_failure_schedules_delayed_retry :
    (∀ (crawl : String → CrawlOutcome) (db : DocDB)
       (eq : List ExtractEntitiesItem) (item : UrlItem) (rest : List UrlItem),
       (item.ignore_cache = true ∨ DocumentDB.get db item.url = none) →
       crawlFailed (crawl item.url) →
       (UrlWorker.loop crawl db (item :: rest) eq).retryScheduled =
         some (item, RETRY_DELAY_SECONDS) ∧
       (UrlWorker.loop crawl db (item :: rest) eq).url_queue = rest ∧
       (UrlWorker.loop crawl db (item :: rest) eq).processed = true ∧
       WorkerBase.retry_after_delay item
         (UrlWorker.loop crawl db (item :: rest) eq).url_queue = rest ++ [item]) ∧
    (∀ (oracle : ExtractOracle) (db : DocDB) (gq : List UpdateGraphItem)
       (item : ExtractEntitiesItem) (rest : List ExtractEntitiesItem)
       (doc : DocumentItem),
       DocumentDB.get db item.url = some doc →
       (item.ignore_cache = true ∨ entitiesTruthy doc.entities = false) →
       extract_entities oracle doc = .error () →
       (EntityExtractorWorker.loop oracle db (item :: rest) gq).retryScheduled =
         some (item, RETRY_DELAY_SECONDS) ∧
       (EntityExtractorWorker.loop oracle db (item :: rest) gq).extract_queue = rest ∧
       (EntityExtractorWorker.loop oracle db (item :: rest) gq).processed = true ∧
       (EntityExtractorWorker.loop oracle db (item :: rest) gq).update_graph_queue = gq ∧
       WorkerBase.retry_after_delay item
         (EntityExtractorWorker.loop oracle db (item :: rest) gq).extract_queue =
           rest ++ [item]) ∧
    (∀ (db : DocDB) (g : Graph) (item : UpdateGraphItem)
       (rest : List UpdateGraphItem) (doc : DocumentItem),
       DocumentDB.get db item.url = some doc →
       entitiesTruthy doc.entities = true →
       (GraphWorker.loop MergeOutcome.exn db g (item :: rest)).retryScheduled =
         some (item, RETRY_DELAY_SECONDS) ∧
       (GraphWorker.loop MergeOutcome.exn db g (item :: rest)).update_graph_queue = rest ∧
       (GraphWorker.loop MergeOutcome.exn db g (item :: rest)).processed = true ∧
       WorkerBase.retry_after_delay item
         (GraphWorker.loop MergeOutcome.exn db g (item :: rest)).update_graph_queue =
           rest ++ [item]) := by
  refine ⟨?_, ?_, ?_⟩
  · intro crawl db eq item rest h1 h2
    have hcache : (if item.ignore_cache then none else DocumentDB.get db item.url) =
        (none : Option DocumentItem) := by
      rcases h1 with h | h <;> simp [h]
    rcases hc : crawl item.url with ⟨s, m, e⟩ | _
    · rw [hc] at h2
      simp only [crawlFailed] at h2
      simp [UrlWorker.loop, hcache, hc, h2, WorkerBase.retry_after_delay]
    · simp [UrlWorker.loop, hcache, hc, WorkerBase.retry_after_delay]
  · intro oracle db gq item rest doc hdb hnoskip hfail
    have hskip : (!item.ignore_cache && entitiesTruthy doc.entities) = false := by
      rcases hnoskip with h | h <;> simp [h]
    simp [EntityExtractorWorker.loop, hdb, hskip, hfail,
      WorkerBase.retry_after_delay]
  · intro db g item rest doc hdb hent
    simp [GraphWorker.loop, hdb, hent, WorkerBase.retry_after_delay]

/-- Witness for transient_failure_schedules_delayed_retry: a failing crawl,
a failing extraction and a failing graph merge, at concrete states. -/
theorem transient_failure_schedules_delayed_retry_witness :
    (UrlWorker.loop (fun _ => CrawlOutcome.exn) emptyDB
      [{ url := "u", ignore_cache := true }] []).retryScheduled =
      some ({ url := "u", ignore_cache := true }, RETRY_DELAY_SECONDS) ∧
    (EntityExtractorWorker.loop extractFail dbContentOnly
      [{ url := "u", ignore_cache := true }] []).retryScheduled =
      some ({ url := "u", ignore_cache := true }, RETRY_DELAY_SECONDS) ∧
    (GraphWorker.loop MergeOutcome.exn dbEntitiesNoContent
      { nodes := [], edges := [] } [{ url := "u" }]).retryScheduled =
      some ({ url := "u" }, RETRY_DELAY_SECONDS) :=
  ⟨(transient_failure_schedules_delayed_retry.1 (fun _ => CrawlOutcome.exn)
      emptyDB [] { url := "u", ignore_cache := true } [] (Or.inl rfl) trivial).1,
   (transient_failure_schedules_delayed_retry.2.1 extractFail dbContentOnly []
      { url := "u", ignore_cache := true } []
      { url := "u", content := some "text", entities := none }
      (by decide) (Or.inl rfl) rfl).1,
   (transient_failure_schedules_delayed_retry.2.2 dbEntitiesNoContent
      { nodes := [], edges := [] } { url := "u" } []
      { url := "u", content := none,
        entities := some { nodes := some [], edges := none } }
      (by decide) (by decide)).1⟩

/-- Under a set shutdown event, no transition of WorkerBase.start enters
the run phase. -/
theorem startStep_true_ne_run (o : Bool) (q : WorkerPhase) :
    WorkerBase.startStep true o q ≠ WorkerPhase.run := by
  cases q <;> cases o <;> simp [WorkerBase.startStep]

/-- C9: once the shared shutdown event is set, (a) the only way into the
run phase (the `await self.loop()` call, where dequeueing and processing
happen) is the while-loop test with the event unset — the signal is checked
before every poll, and the idle wait exits to that test; (b) from any phase
no later step is in the run phase, so no new item is dequeued or processed
(an in-flight run is allowed to complete: only positions after the current
one are constrained); (c) within three transitions every worker is in the
stopped phase, i.e. its start loop has terminated. -/
theorem worker_shutdown_no_new_work :
    (∀ (sh o : Bool) (p : WorkerPhase),
       WorkerBase.startStep sh o p = WorkerPhase.run →
         p = WorkerPhase.check ∧ sh = false) ∧
    (∀ (os : Nat → Bool) (p : WorkerPhase) (n : Nat), 0 < n →
       WorkerBase.stepN true os n p ≠ WorkerPhase.run) ∧
    (∀ (os : Nat → Bool) (p : WorkerPhase) (n : Nat), 3 ≤ n →
       WorkerBase.stepN true os n p = WorkerPhase.stopped) := by
  refine ⟨?_, ?_, ?_⟩
  · intro sh o p h
    cases p <;> cases sh <;> cases o <;> simp_all [WorkerBase.startStep]
  · intro os p n hn
    obtain ⟨m, rfl⟩ : ∃ m, n = m + 1 := ⟨n - 1, by omega⟩
    exact startStep_true_ne_run (os m) (WorkerBase.stepN true os m p)
  · intro os p n hn
    have h3 : ∀ (os : Nat → Bool) (p : WorkerPhase),
        WorkerBase.stepN true os 3 p = WorkerPhase.stopped := by
      intro os p
      show WorkerBase.startStep true (os 2)
        (WorkerBase.startStep true (os 1)
          (WorkerBase.startStep true (os 0) p)) = WorkerPhase.stopped
      cases p <;> cases h0 : os 0 <;> cases h1 : os 1 <;> cases h2 : os 2 <;>
        simp [WorkerBase.startStep]
    have habs : ∀ (j : Nat), WorkerBase.stepN true os (3 + j) p = WorkerPhase.stopped := by
      intro j
      induction j with
      | zero => exact h3 os p
      | succ k ih =>
        show WorkerBase.startStep true (os (3 + k))
          (WorkerBase.stepN true os (3 + k) p) = WorkerPhase.stopped
        rw [ih]
        rfl
    obtain ⟨j, rfl⟩ : ∃ j, n = 3 + j := ⟨n - 3, by omega⟩
    exact habs j

/-- Witness for worker_shutdown_no_new_work at concrete inputs. -/
theorem worker_shutdown_no_new_work_witness :
    (WorkerPhase.check = WorkerPhase.check ∧ false = false) ∧
    WorkerBase.stepN true (fun _ => true) 1 WorkerPhase.check ≠ WorkerPhase.run ∧
    WorkerBase.stepN true (fun _ => true) 3 WorkerPhase.idle = WorkerPhase.stopped :=
  ⟨worker_shutdown_no_new_work.1 false true WorkerPhase.check rfl,
   worker_shutdown_no_new_work.2.1 (fun _ => true) WorkerPhase.check 1 (by decide),
   worker_shutdown_no_new_work.2.2 (fun _ => true) WorkerPhase.idle 3 (by decide)⟩

/-- Looking a name up after an upsert: the upserted name maps to the new
label, every other name is unaffected. -/
theorem nodeLookup_upsertNode (ns : List NodeRow) (a b k : String) :
    nodeLookup (upsertNode ns a b) k = if a = k then some b else nodeLookup ns k := by
  induction ns with
  | nil => simp [upsertNode, nodeLookup]
  | cons hd t ih =>
    obtain ⟨n, l⟩ := hd
    by_cases hna : n = a
    · subst hna
      by_cases hk : n = k <;> simp [upsertNode, nodeLookup, hk]
    · by_cases hak : a = k
      · subst hak
        simp [upsertNode, nodeLookup, hna, ih]
      · simp [upsertNode, nodeLookup, hna, hak, ih]

/-- The label written last for a name by the node loop of update_graph, if
any: the latest valid fragment node with that id wins. -/
def lastUpd (k : String) : List NodeDict → Option String
  | [] => none
  | n :: t =>
    match lastUpd k t with
    | some b => some b
    | none =>
      match validId n.id with
      | some a => if a = k then some (n.label.getD "Unknown") else none
      | none => none

/-- Looking a name up after the node loop: the name maps to the label the
loop wrote last for it, and to its previous binding when the loop never
touched it. -/
theorem nodeLookup_nodesPhase (ns : List NodeDict) (k : String) :
    ∀ g, nodeLookup (nodesPhase ns g) k =
      match lastUpd k ns with
      | some b => some b
      | none => nodeLookup g k := by
  induction ns with
  | nil => intro g; rfl
  | cons n t ih =>
    intro g
    cases hv : validId n.id with
    | none =>
      cases hl : lastUpd k t <;>
        simp [nodesPhase, hv, lastUpd, ih, hl]
    | some a =>
      cases hl : lastUpd k t <;> by_cases hak : a = k <;>
        simp [nodesPhase, hv, lastUpd, ih, hl, hak, nodeLookup_upsertNode]

/-- Running the node loop of update_graph twice with the same fragment
nodes leaves the same name-to-label table as running it once. -/
theorem nodesPhase_idem (ns : List NodeDict) (g : List NodeRow) (k : String) :
    nodeLookup (nodesPhase ns (nodesPhase ns g)) k =
      nodeLookup (nodesPhase ns g) k := by
  rw [nodeLookup_nodesPhase, nodeLookup_nodesPhase]
  cases hl : lastUpd k ns <;> simp [hl]

/-- The fragment edge list offers the triple x for merging against the node
table nTab: some fragment edge has truthy source and target equal to x's
endpoints, relation (defaulted) equal to x's, and both endpoints exist in
nTab. -/
def isCand (x : EdgeRow) (es : List EdgeDict) (nTab : List NodeRow) : Prop :=
  ∃ e ∈ es, validId e.source = some x.1 ∧ validId e.target = some x.2.1 ∧
    e.relation.getD "RELATED_TO" = x.2.2 ∧
    hasName nTab x.1 = true ∧ hasName nTab x.2.1 = true

/-- Unfolding isCand over a cons cell. -/
theorem isCand_cons (x : EdgeRow) (e : EdgeDict) (t : List EdgeDict)
    (nTab : List NodeRow) :
    isCand x (e :: t) nTab ↔
      (validId e.source = some x.1 ∧ validId e.target = some x.2.1 ∧
        e.relation.getD "RELATED_TO" = x.2.2 ∧
        hasName nTab x.1 = true ∧ hasName nTab x.2.1 = true) ∨
      isCand x t nTab := by
  simp [isCand]

/-- Membership in the edge table after the edge loop of update_graph: an
edge row is present afterwards exactly when it was present before or the
fragment offers it as a candidate whose endpoints exist in the node
table. -/
theorem mem_edgesPhase (es : List EdgeDict) (nTab : List NodeRow) (x : EdgeRow) :
    ∀ E, x ∈ edgesPhase es nTab E ↔ x ∈ E ∨ isCand x es nTab := by
  induction es with
  | nil =>
    intro E
    simp [edgesPhase, isCand]
  | cons e t ih =>
    intro E
    cases hs : validId e.source with
    | none => simp [edgesPhase, hs, ih, isCand_cons]
    | some s =>
      cases ht : validId e.target with
      | none => simp [edgesPhase, hs, ht, ih, isCand_cons]
      | some tg =>
        by_cases hb : (hasName nTab s && hasName nTab tg) = true
        · have hhead : (validId e.source = some x.1 ∧ validId e.target = some x.2.1 ∧
              e.relation.getD "RELATED_TO" = x.2.2 ∧
              hasName nTab x.1 = true ∧ hasName nTab x.2.1 = true) ↔
              x = (s, tg, e.relation.getD "RELATED_TO") := by
            constructor
            · rintro ⟨h1, h2, h3, _, _⟩
              rw [hs] at h1
              rw [ht] at h2
              obtain ⟨x1, x2, x3⟩ := x
              simp only at h1 h2 h3
              simp [Option.some.injEq] at h1 h2
              simp [h1, h2, h3]
            · rintro rfl
              rcases Bool.and_eq_true .. |>.mp hb with ⟨hb1, hb2⟩
              exact ⟨hs, ht, rfl, hb1, hb2⟩
          simp only [edgesPhase, hs, ht, hb, if_true]
          by_cases hmem : (s, tg, e.relation.getD "RELATED_TO") ∈ E
          · rw [if_pos hmem, ih E, isCand_cons, hhead]
            constructor
            · rintro (h | h)
              · exact Or.inl h
              · exact Or.inr (Or.inr h)
            · rintro (h | h | h)
              · exact Or.inl h
              · exact Or.inl (h ▸ hmem)
              · exact Or.inr h
          · rw [if_neg hmem, ih (E ++ [(s, tg, e.relation.getD "RELATED_TO")]),
              isCand_cons, hhead]
            simp only [List.mem_append, List.mem_singleton]
            tauto
        · have hhead : ¬ (validId e.source = some x.1 ∧ validId e.target = some x.2.1 ∧
              e.relation.getD "RELATED_TO" = x.2.2 ∧
              hasName nTab x.1 = true ∧ hasName nTab x.2.1 = true) := by
            rintro ⟨h1, h2, _, h4, h5⟩
            rw [hs] at h1
            rw [ht] at h2
            apply hb
            rw [Bool.and_eq_true]
            constructor
            · rw [Option.some.injEq] at h1
              rw [h1]
              exact h4
            · rw [Option.some.injEq] at h2
              rw [h2]
              exact h5
          simp only [edgesPhase, hs, ht]
          rw [if_neg hb, ih E, isCand_cons]
          tauto

/-- isCand only inspects the node table through hasName. -/
theorem isCand_congr (x : EdgeRow) (es : List EdgeDict)
    (nTab1 nTab2 : List NodeRow)
    (h : ∀ k, hasName nTab2 k = hasName nTab1 k) :
    isCand x es nTab2 ↔ isCand x es nTab1 := by
  simp only [isCand, h]

/-- C6: graph merge is idempotent — applying GraphDB.update_graph twice
with the same fragment leaves exactly the node set (name-to-label table)
and edge set of applying it once: nodes are upserted by name, and merging
an already-present (source, target, relation) triple is a no-op. -/
theorem update_graph_idempotent (f : EntitiesDict) (g : Graph) :
    (∀ k, nodeLookup (GraphDB.update_graph f (GraphDB.update_graph f g)).nodes k =
      nodeLookup (GraphDB.update_graph f g).nodes k) ∧
    (∀ x : EdgeRow, x ∈ (GraphDB.update_graph f (GraphDB.update_graph f g)).edges ↔
      x ∈ (GraphDB.update_graph f g).edges) := by
  constructor
  · intro k
    exact nodesPhase_idem (f.nodes.getD []) g.nodes k
  · intro x
    show x ∈ edgesPhase (f.edges.getD [])
        (nodesPhase (f.nodes.getD []) (nodesPhase (f.nodes.getD []) g.nodes))
        (edgesPhase (f.edges.getD []) (nodesPhase (f.nodes.getD []) g.nodes) g.edges) ↔
      x ∈ edgesPhase (f.edges.getD []) (nodesPhase (f.nodes.getD []) g.nodes) g.edges
    have hnames : ∀ k, hasName
        (nodesPhase (f.nodes.getD []) (nodesPhase (f.nodes.getD []) g.nodes)) k =
        hasName (nodesPhase (f.nodes.getD []) g.nodes) k := by
      intro k
      unfold hasName
      rw [nodesPhase_idem]
    rw [mem_edgesPhase,
      isCand_congr x (f.edges.getD []) (nodesPhase (f.nodes.getD []) g.nodes) _ hnames]
    constructor
    · rintro (h | h)
      · exact h
      · exact (mem_edgesPhase (f.edges.getD [])
          (nodesPhase (f.nodes.getD []) g.nodes) x g.edges).mpr (Or.inr h)
    · exact Or.inl

/-- A concrete fragment for the idempotence witness. -/
def c6frag : EntitiesDict :=
  { nodes := some [{ id := some "A", label := some "P" },
                   { id := some "B", label := none }],
    edges := some [{ source := some "A", target := some "B",
                     relation := some "R" }] }

/-- Witness for update_graph_idempotent at a concrete fragment and the
empty graph. -/
theorem update_graph_idempotent_witness :
    nodeLookup (GraphDB.update_graph c6frag
      (GraphDB.update_graph c6frag { nodes := [], edges := [] })).nodes "A" =
      nodeLookup (GraphDB.update_graph c6frag { nodes := [], edges := [] }).nodes "A" ∧
    (("A", "B", "R") ∈ (GraphDB.update_graph c6frag
      (GraphDB.update_graph c6frag { nodes := [], edges := [] })).edges ↔
      ("A", "B", "R") ∈ (GraphDB.update_graph c6frag { nodes := [], edges := [] }).edges) :=
  ⟨(update_graph_idempotent c6frag { nodes := [], edges := [] }).1 "A",
   (update_graph_idempotent c6frag { nodes := [], edges := [] }).2 ("A", "B", "R")⟩
